import Mathlib

/-!
Shallow embedding of the availability-watching core of `slot_watcher.py`
(class `SlotWatcher`): the date-key normalizer (`parse_date_key`), the
status classifier (`determine_status_from_value`), the extraction
strategies (`parse_js_calendar_data`, `extract_dates_from_text`,
`extract_calendar_from_js`, `parse_static_calendar`, the per-element
status resolution of `check_museum_selenium`), the change detector
(`check_for_changes`) and the notification entry (`send_notification`).

Python dicts are modelled as association lists with first-hit lookup,
exceptions as `Option`/`Except`, and `datetime.strptime` by the exact
digit-group regexes CPython uses for the directives `%Y`, `%m`, `%d`
(`%Y` is exactly four digits; `%m` is `1[0-2]|0[1-9]|[1-9]`; `%d` is
`3[01]|[12]d|0[1-9]|[1-9]`, alternatives tried in that order, and the
whole input string must be consumed).
-/

/-- A calendar date: `(year, month, day)` with no time component. -/
structure CalendarDate where
  year : Nat
  month : Nat
  day : Nat
deriving DecidableEq, Repr

/-- Gregorian leap-year test, as `datetime.date` uses it. -/
def isLeap (y : Nat) : Bool :=
  (y % 4 == 0 && y % 100 != 0) || y % 400 == 0

/-- Days in a month, as `datetime.date` validates them. -/
def daysInMonth (y m : Nat) : Nat :=
  if m = 2 then (if isLeap y then 29 else 28)
  else if m = 4 ∨ m = 6 ∨ m = 9 ∨ m = 11 then 30
  else 31

/-- Validity predicate of the `datetime.date(year, month, day)` constructor:
year in 1..9999, month in 1..12, day in range for the month. -/
def validDate (y m d : Nat) : Bool :=
  1 ≤ y && y ≤ 9999 && 1 ≤ m && m ≤ 12 && 1 ≤ d && d ≤ daysInMonth y m

/-- `datetime.date(y, m, d)`: `some` on a valid date, `none` models the
`ValueError` the constructor raises on an invalid one. -/
def mkDate (y m d : Nat) : Option CalendarDate :=
  if validDate y m d then some ⟨y, m, d⟩ else none

/-- Decimal digit character test, the regex class backslash-d on ASCII. -/
def isDigitChar (c : Char) : Bool :=
  48 ≤ c.toNat && c.toNat ≤ 57

/-- Numeric value of a digit character. -/
def digitVal (c : Char) : Nat :=
  c.toNat - 48

/-- The decimal digit character for a value below ten. -/
def digitChar : Nat → Char
  | 0 => '0' | 1 => '1' | 2 => '2' | 3 => '3' | 4 => '4'
  | 5 => '5' | 6 => '6' | 7 => '7' | 8 => '8' | _ => '9'

/-- Two-digit zero-padded rendering, as `strftime` renders the month and
day fields. -/
def pad2Chars (n : Nat) : List Char :=
  [digitChar (n / 10 % 10), digitChar (n % 10)]

/-- Four-digit zero-padded rendering, as `strftime` documents for the
four-digit year field. -/
def pad4Chars (n : Nat) : List Char :=
  [digitChar (n / 1000 % 10), digitChar (n / 100 % 10),
   digitChar (n / 10 % 10), digitChar (n % 10)]

/-- The characters of `d.strftime(%Y-%m-%d)`. -/
def fmtIsoChars (d : CalendarDate) : List Char :=
  pad4Chars d.year ++ '-' :: pad2Chars d.month ++ '-' :: pad2Chars d.day

/-- `d.strftime(%Y-%m-%d)`: the canonical `YYYY-MM-DD` string form. -/
def fmtIso (d : CalendarDate) : String :=
  String.mk (fmtIsoChars d)

/-- Candidate matches of the CPython strptime month directive, the regex
`1[0-2]|0[1-9]|[1-9]`: each candidate is the month value paired with the
unconsumed remainder, listed in regex alternation order. -/
def monthCands : List Char → List (Nat × List Char)
  | [] => []
  | c₁ :: rest =>
    let one := if isDigitChar c₁ && 1 ≤ digitVal c₁ then [(digitVal c₁, rest)] else []
    match rest with
    | [] => one
    | c₂ :: rest₂ =>
      let a := if c₁ = '1' && (c₂ = '0' || c₂ = '1' || c₂ = '2') then
        [(10 + digitVal c₂, rest₂)] else []
      let b := if c₁ = '0' && (isDigitChar c₂ && 1 ≤ digitVal c₂) then
        [(digitVal c₂, rest₂)] else []
      a ++ b ++ one

/-- Candidate matches of the CPython strptime day directive, the regex
`3[01]|[12]d|0[1-9]|[1-9]` with `d` the digit class, in alternation
order. -/
def dayCands : List Char → List (Nat × List Char)
  | [] => []
  | c₁ :: rest =>
    let one := if isDigitChar c₁ && 1 ≤ digitVal c₁ then [(digitVal c₁, rest)] else []
    match rest with
    | [] => one
    | c₂ :: rest₂ =>
      let a := if c₁ = '3' && (c₂ = '0' || c₂ = '1') then
        [(30 + digitVal c₂, rest₂)] else []
      let b := if (c₁ = '1' || c₁ = '2') && isDigitChar c₂ then
        [(10 * digitVal c₁ + digitVal c₂, rest₂)] else []
      let cAlt := if c₁ = '0' && (isDigitChar c₂ && 1 ≤ digitVal c₂) then
        [(digitVal c₂, rest₂)] else []
      a ++ b ++ cAlt ++ one

/-- Value of four digit characters read as a decimal year. -/
def num4 (a b c d : Char) : Nat :=
  1000 * digitVal a + 100 * digitVal b + 10 * digitVal c + digitVal d

/-- Value of two digit characters read as a decimal number. -/
def num2 (a b : Char) : Nat :=
  10 * digitVal a + digitVal b

/-- `strptime(key, %Y-%m-%d)` up to the regex match: the first full-string
match assignment as a `(year, month, day)` triple, before any date
validation. -/
def isoMatchTriple : List Char → Option (Nat × Nat × Nat)
  | y₁ :: y₂ :: y₃ :: y₄ :: sep :: rest =>
    if sep = '-' && (isDigitChar y₁ && isDigitChar y₂ && isDigitChar y₃ && isDigitChar y₄) then
      (monthCands rest).findSome? fun mc =>
        match mc.2 with
        | c :: r₂ =>
          if c = '-' then
            (dayCands r₂).findSome? fun dc =>
              if dc.2 = [] then some (num4 y₁ y₂ y₃ y₄, mc.1, dc.1) else none
          else none
        | [] => none
    else none
  | _ => none

/-- `strptime(key, %m/%d)` up to the regex match: the first full-string
match as a `(month, day)` pair. -/
def slashMatchPair (s : List Char) : Option (Nat × Nat) :=
  (monthCands s).findSome? fun mc =>
    match mc.2 with
    | c :: r₂ =>
      if c = '/' then
        (dayCands r₂).findSome? fun dc =>
          if dc.2 = [] then some (mc.1, dc.1) else none
      else none
    | [] => none

/-- `strptime(key, %Y%m%d)` up to the regex match. -/
def compactMatchTriple : List Char → Option (Nat × Nat × Nat)
  | y₁ :: y₂ :: y₃ :: y₄ :: rest =>
    if isDigitChar y₁ && isDigitChar y₂ && isDigitChar y₃ && isDigitChar y₄ then
      (monthCands rest).findSome? fun mc =>
        (dayCands mc.2).findSome? fun dc =>
          if dc.2 = [] then some (num4 y₁ y₂ y₃ y₄, mc.1, dc.1) else none
    else none
  | _ => none

/-- One anchored attempt of the final regex search in `parse_date_key`
for four digits, dash, two digits, dash, two digits. -/
def isoSearchHere : List Char → Option (Nat × Nat × Nat)
  | y₁ :: y₂ :: y₃ :: y₄ :: s₁ :: m₁ :: m₂ :: s₂ :: d₁ :: d₂ :: _ =>
    if s₁ = '-' && s₂ = '-' &&
        (isDigitChar y₁ && isDigitChar y₂ && isDigitChar y₃ && isDigitChar y₄) &&
        (isDigitChar m₁ && isDigitChar m₂) && (isDigitChar d₁ && isDigitChar d₂) then
      some (num4 y₁ y₂ y₃ y₄, num2 m₁ m₂, num2 d₁ d₂)
    else none
  | _ => none

/-- Leftmost match of the regex search for an embedded `YYYY-MM-DD`
substring, the last resort of `parse_date_key`. -/
def isoSearchTriple : List Char → Option (Nat × Nat × Nat)
  | [] => none
  | c :: t =>
    match isoSearchHere (c :: t) with
    | some r => some r
    | none => isoSearchTriple t

/-- The body of the strptime loop in `parse_date_key` for one format: on a
regex match, construct the date (a `ValueError` on an invalid date becomes
`none`, which makes the loop continue), then apply the fixup that replaces
the placeholder year 1900 by 2024, revalidating as `date.replace` does. -/
def applyYearFix : Option (Nat × Nat × Nat) → Option CalendarDate
  | none => none
  | some (y, m, d) =>
    (mkDate y m d).bind fun dt =>
      if dt.year = 1900 then mkDate 2024 dt.month dt.day else some dt

/-- `SlotWatcher.parse_date_key`: try `%Y-%m-%d`, `%m/%d`, `%Y%m%d` in
order (a failed match or an invalid date continues with the next format;
a parse with no explicit year defaults to 1900 and the year-1900 fixup
rewrites it to 2024), then fall back to a regex search for an embedded
ISO date; any remaining failure returns `none`, never an exception. -/
def parse_date_key (key : String) : Option CalendarDate :=
  (applyYearFix (isoMatchTriple key.toList)).orElse fun _ =>
    (applyYearFix ((slashMatchPair key.toList).map fun p => (1900, p.1, p.2))).orElse fun _ =>
      (applyYearFix (compactMatchTriple key.toList)).orElse fun _ =>
        (isoSearchTriple key.toList).bind fun t => mkDate t.1 t.2.1 t.2.2

/-- Lowercased characters of a string, as the Python `lower` call. -/
def lowerChars (s : List Char) : List Char :=
  s.map Char.toLower

/-- Substring containment, the Python `needle in haystack` test on
strings. -/
def containsSub (hay needle : List Char) : Bool :=
  if needle.isPrefixOf hay then true
  else
    match hay with
    | [] => false
    | _ :: t => containsSub t needle

/-- The `any(word in value for word in words)` idiom. -/
def containsAnySub (hay : List Char) (words : List String) : Bool :=
  words.any fun w => containsSub hay w.toList

/-- The dynamically typed signal handed to the status classifier: a
string, a boolean, an integer, or anything else. -/
inductive JsValue where
  | vStr (s : String)
  | vBool (b : Bool)
  | vInt (n : Int)
  | vOther
deriving DecidableEq, Repr

/-- `SlotWatcher.determine_status_from_value`: the token rules on a
lowercased string, checked in source order (available, few, sold, closed),
the boolean rule, and the integer rule with threshold 5; no match returns
`none` (the Python `None`). -/
def determine_status_from_value : JsValue → Option String
  | .vStr s =>
    let l := lowerChars s.toList
    if containsAnySub l ["available", "open", "circle"] then some "available"
    else if containsAnySub l ["few", "limited", "triangle"] then some "few_left"
    else if containsAnySub l ["sold", "out", "cross", "closed"] then some "sold_out"
    else if containsSub l "closed".toList then some "closed"
    else none
  | .vBool b => some (if b then "available" else "sold_out")
  | .vInt n =>
    if 0 < n then (if 5 < n then some "available" else some "few_left")
    else some "sold_out"
  | .vOther => none

/-- The classifier result with the `None` outcome read as the spec status
`unknown` (callers drop `None`-classified entries, so no entry ever
carries a status outside the five spec values). -/
def classify (v : JsValue) : String :=
  (determine_status_from_value v).getD "unknown"

/-- The five availability statuses of the data model. -/
def fiveStatuses : List String :=
  ["available", "few_left", "sold_out", "closed", "unknown"]

/-- An availability snapshot: the flat date-key to status-string mapping,
modelled as an association list with first-hit lookup. -/
abbrev Snapshot : Type := List (String × String)

/-- Dict lookup on a snapshot. -/
def snapGet (s : Snapshot) (k : String) : Option String :=
  match s with
  | [] => none
  | p :: t => if p.1 = k then some p.2 else snapGet t k

/-- Dict item assignment on a snapshot: overwrite in place or append. -/
def snapSet (s : Snapshot) (k v : String) : Snapshot :=
  match s with
  | [] => [(k, v)]
  | p :: t => if p.1 = k then (k, v) :: t else p :: snapSet t k v

/-- Dict `update` on a snapshot: existing keys take the new value, new
keys are appended. -/
def snapUpdate (base upd : Snapshot) : Snapshot :=
  upd.foldl (fun acc p => snapSet acc p.1 p.2) base

/-- Regex search for four digits, dash, two digits, dash, two digits
(date-shape check only, no extraction). -/
def searchIsoShape : List Char → Bool
  | [] => false
  | c :: t => (isoSearchHere (c :: t)).isSome || searchIsoShape t

/-- Regex search for two digits, slash, two digits. -/
def searchSlashShape : List Char → Bool
  | d₁ :: d₂ :: s :: d₃ :: d₄ :: t =>
    (isDigitChar d₁ && isDigitChar d₂ && s = '/' && isDigitChar d₃ && isDigitChar d₄)
      || searchSlashShape (d₂ :: s :: d₃ :: d₄ :: t)
  | _ => false

/-- Regex search for eight consecutive digits. -/
def searchEightDigits : List Char → Bool
  | c₁ :: c₂ :: c₃ :: c₄ :: c₅ :: c₆ :: c₇ :: c₈ :: t =>
    ([c₁, c₂, c₃, c₄, c₅, c₆, c₇, c₈].all isDigitChar)
      || searchEightDigits (c₂ :: c₃ :: c₄ :: c₅ :: c₆ :: c₇ :: c₈ :: t)
  | _ => false

/-- Regex search for the literal `20` followed by two digits. -/
def searchYear20 : List Char → Bool
  | c₁ :: c₂ :: c₃ :: c₄ :: t =>
    (c₁ = '2' && c₂ = '0' && isDigitChar c₃ && isDigitChar c₄)
      || searchYear20 (c₂ :: c₃ :: c₄ :: t)
  | _ => false

/-- Regex search for the word `october` followed somewhere later by a
`20xx` year. -/
def searchOctoberYear : List Char → Bool
  | [] => false
  | c :: t =>
    (("october".toList.isPrefixOf (c :: t)) && searchYear20 (List.drop 7 (c :: t)))
      || searchOctoberYear t

/-- `SlotWatcher.is_date_key`: the key, lowercased, matches one of the
four date-like regex patterns. -/
def is_date_key (key : String) : Bool :=
  let l := lowerChars key.toList
  searchIsoShape l || searchSlashShape l || searchEightDigits l || searchOctoberYear l

/-- `SlotWatcher.__init__` sets `self.target_dates = []`, and no other
assignment to it exists in the repository. -/
def target_dates : List CalendarDate := []

/-- `SlotWatcher.parse_js_calendar_data`: walk the key-value pairs of a
decoded script object; keep a pair only when the key is date-like, parses
to a date that is a member of `target_dates`, and the value classifies to
a status. -/
def parse_js_calendar_data (data : List (String × JsValue)) : Snapshot :=
  data.foldl
    (fun acc kv =>
      if is_date_key kv.1 then
        match parse_date_key kv.1 with
        | some dt =>
          if target_dates.contains dt then
            match determine_status_from_value kv.2 with
            | some st => snapSet acc (fmtIso dt) st
            | none => acc
          else acc
        | none => acc
      else acc)
    []

/-- `SlotWatcher.extract_dates_from_text`, given the `(date, status)`
string pairs its two regexes matched in the text: keep a pair only when
the date parses, is a member of `target_dates`, and the status string
classifies. -/
def extract_dates_from_text (pairs : List (String × String)) : Snapshot :=
  pairs.foldl
    (fun acc p =>
      match parse_date_key p.1 with
      | some dt =>
        if target_dates.contains dt then
          match determine_status_from_value (.vStr p.2) with
          | some st => snapSet acc (fmtIso dt) st
          | none => acc
        else acc
      | none => acc)
    []

/-- One regex match inside a script block, after the JSON-decode attempt
of `extract_calendar_from_js`: either it decoded to an object (handed to
`parse_js_calendar_data`) or it stayed raw text (handed to
`extract_dates_from_text` as the pairs its regexes find there). -/
inductive ScriptMatch where
  | asJson (data : List (String × JsValue))
  | asText (pairs : List (String × String))

/-- `SlotWatcher.extract_calendar_from_js`: fold every pattern match of
every script block into one dict via `update`. -/
def extract_calendar_from_js (scripts : List (List ScriptMatch)) : Snapshot :=
  scripts.foldl
    (fun acc ms =>
      ms.foldl
        (fun acc₂ m =>
          match m with
          | .asJson data => snapUpdate acc₂ (parse_js_calendar_data data)
          | .asText pairs => snapUpdate acc₂ (extract_dates_from_text pairs))
        acc)
    []

/-- One calendar item of the static HTML path: the day label text when a
`title-day` div exists, the class list of the `price-day` div when one
exists, and whether a `closed-section` div exists. -/
structure StaticItem where
  dayText : Option String
  priceDayClasses : Option (List String)
  closedSection : Bool

/-- The status the static path resolves from the `price-day` class list
(class-token membership, in source order), before the closed override. -/
def staticBaseStatus (classes : List String) : String :=
  if classes.contains "aval" then "available"
  else if classes.contains "one-left" then "few_left"
  else if classes.contains "sold-out" then "sold_out"
  else "unknown"

/-- The final status of a static item with a `price-day` div: the base
status, overridden to `closed` when a `closed-section` div exists. -/
def staticItemStatus (classes : List String) (closedSection : Bool) : String :=
  let base := staticBaseStatus classes
  if closedSection then "closed" else base

/-- Python `str.isdigit` on ASCII text: nonempty and all digits. -/
def isDigitText (s : String) : Bool :=
  !s.toList.isEmpty && s.toList.all isDigitChar

/-- Numeric value of a digit string, the `int(...)` conversion. -/
def natOfDigitText (s : String) : Nat :=
  s.toList.foldl (fun acc c => 10 * acc + digitVal c) 0

/-- One loop step of `SlotWatcher.parse_static_calendar`: skip items with
no day label, a non-numeric day label, or no `price-day` div; otherwise
resolve the status (closed override included), build the date from the
month-year context, and assign it into the dict. A `none` result models
the uncaught `ValueError` of an out-of-range `date(...)` construction. -/
def staticStep (ctx : Nat × Nat) (acc : Snapshot) (item : StaticItem) : Option Snapshot :=
  match item.dayText with
  | none => some acc
  | some dayText =>
    if isDigitText dayText then
      match item.priceDayClasses with
      | none => some acc
      | some classes =>
        let status := staticItemStatus classes item.closedSection
        match mkDate ctx.1 ctx.2 (natOfDigitText dayText) with
        | none => none
        | some dt => some (snapSet acc (fmtIso dt) status)
    else some acc

/-- `SlotWatcher.parse_static_calendar` over the flattened calendar items,
with the month-year context `extract_month_year_from_context` resolved to
(the function always returns a pair, defaulting to the current year and
October). -/
def parse_static_calendar (items : List StaticItem) (ctx : Nat × Nat) : Option Snapshot :=
  items.foldlM (staticStep ctx) []

/-- `SlotWatcher.parse_calendar`: start from an empty dict, merge the
JavaScript extraction when nonempty, then merge the static extraction
when nonempty. -/
def parse_calendar (scripts : List (List ScriptMatch)) (items : List StaticItem)
    (ctx : Nat × Nat) : Option Snapshot :=
  let a0 : Snapshot := []
  let js := extract_calendar_from_js scripts
  let a1 := if js.isEmpty then a0 else snapUpdate a0 js
  match parse_static_calendar items ctx with
  | none => none
  | some html => some (if html.isEmpty then a1 else snapUpdate a1 html)

/-- One calendar element of the rendered (Selenium) path: the day label,
the class attribute string of the element, the class attribute strings of
its `price-day` descendants, whether a `closed-section` descendant
exists, and the element text. -/
structure SelItem where
  dayText : String
  classAttr : String
  priceClassAttrs : List String
  hasClosedSection : Bool
  text : String

/-- Class-token membership, the CSS class selector match on an attribute
string. -/
def hasClassToken (attr token : String) : Bool :=
  (attr.splitOn " ").contains token

/-- Method 2 of the rendered path: scan the `price-day` descendants in
order; the first whose class attribute string contains (as a substring)
one of the status markers decides, checked per element in the order
one-left, aval or available, sold-out, closed. -/
def seleniumPriceScan (priceAttrs : List String) : Option String :=
  priceAttrs.findSome? fun p =>
    let l := p.toList
    if containsSub l "one-left".toList then some "few_left"
    else if containsSub l "aval".toList || containsSub l "available".toList then some "available"
    else if containsSub l "sold-out".toList then some "sold_out"
    else if containsSub l "closed".toList then some "closed"
    else none

/-- Method 3 of the rendered path: probe the CSS selectors
`price-day one-left`, `price-day aval`, `price-day sold-out`,
`closed-section` in that fixed order; the first nonempty result decides. -/
def seleniumSelectorScan (priceAttrs : List String) (hasClosedSection : Bool) : Option String :=
  if priceAttrs.any fun p => hasClassToken p "price-day" && hasClassToken p "one-left" then
    some "few_left"
  else if priceAttrs.any fun p => hasClassToken p "price-day" && hasClassToken p "aval" then
    some "available"
  else if priceAttrs.any fun p => hasClassToken p "price-day" && hasClassToken p "sold-out" then
    some "sold_out"
  else if hasClosedSection then some "closed"
  else none

/-- Method 4 of the rendered path: substring checks on the lowercased
element text. -/
def seleniumTextStatus (text : String) : String :=
  let l := lowerChars text.toList
  if containsAnySub l ["available", "open", "circle"] then "available"
  else if containsAnySub l ["few", "limited", "triangle"] then "few_left"
  else if containsAnySub l ["sold", "out", "cross", "closed"] then "sold_out"
  else "unknown"

/-- The per-element status resolution of `SlotWatcher.check_museum_selenium`:
method 1 (substring checks on the element class attribute), then method 2,
then method 3, then method 4, the first method that resolves anything other
than `unknown` wins. -/
def seleniumStatus (e : SelItem) : String :=
  let ec := e.classAttr.toList
  let m1 :=
    if containsSub ec "aval".toList || containsSub ec "available".toList then "available"
    else if containsSub ec "one-left".toList || containsSub ec "few".toList then "few_left"
    else if containsSub ec "sold-out".toList || containsSub ec "sold".toList then "sold_out"
    else if containsSub ec "closed".toList then "closed"
    else "unknown"
  if m1 ≠ "unknown" then m1
  else
    match seleniumPriceScan e.priceClassAttrs with
    | some st => st
    | none =>
      match seleniumSelectorScan e.priceClassAttrs e.hasClosedSection with
      | some st => st
      | none => seleniumTextStatus e.text

/-- The date part of a museum-prefixed snapshot key: everything after the
first underscore, or the whole key when no underscore exists. -/
def afterUnderscore : List Char → Option (List Char)
  | [] => none
  | '_' :: t => some t
  | _ :: t => afterUnderscore t

/-- The `split` step of `SlotWatcher.check_for_changes` on one key. -/
def keyDatePart (key : String) : String :=
  match afterUnderscore key.toList with
  | some t => String.mk t
  | none => key

/-- `datetime.strptime(s, %Y-%m-%d).date()` as `check_for_changes` calls
it: the regex match followed by date construction, `none` on the
`ValueError` paths. -/
def parseIsoDate (s : String) : Option CalendarDate :=
  match isoMatchTriple s.toList with
  | some (y, m, d) => mkDate y m d
  | none => none

/-- Bookable test: `status in [available, few_left]`. -/
def bookable (s : String) : Bool :=
  s == "available" || s == "few_left"

/-- First pass of `SlotWatcher.check_for_changes` on one entry of the
current snapshot: keep bookable entries whose key date part parses,
as `(date, status, original key)`. -/
def availEntry (kv : String × String) : Option (CalendarDate × String × String) :=
  if bookable kv.2 then (parseIsoDate (keyDatePart kv.1)).map fun d => (d, kv.2, kv.1)
  else none

/-- The `available_dates` list of `SlotWatcher.check_for_changes`. -/
def availableDates (current : Snapshot) : List (CalendarDate × String × String) :=
  current.filterMap availEntry

/-- The previous-status resolution of `SlotWatcher.check_for_changes`:
look up the original key (default `unknown`), look up the reformatted
bare date string (default `unknown`), and use the original-key value
whenever it differs from `unknown`. -/
def resolvePrev (prev : Snapshot) (origKey : String) (d : CalendarDate) : String :=
  let po := (snapGet prev origKey).getD "unknown"
  let pd := (snapGet prev (fmtIso d)).getD "unknown"
  if po ≠ "unknown" then po else pd

/-- Second pass of `SlotWatcher.check_for_changes` on one collected
entry: emit `(date, status)` exactly when the resolved previous status is
not bookable. -/
def emitForKey (prev : Snapshot) : CalendarDate × String × String → Option (CalendarDate × String)
  | (d, st, origKey) =>
    if bookable (resolvePrev prev origKey d) then none else some (d, st)

/-- `SlotWatcher.check_for_changes`: the list of `(date, status)`
transitions handed to `send_notification`, in snapshot order. -/
def check_for_changes (current prev : Snapshot) : List (CalendarDate × String) :=
  (availableDates current).filterMap (emitForKey prev)

/-- The attribute names `SlotWatcher.__init__` assigns on `self`; the only
other attribute assignment in the class body, `self.last_availability` in
`check_availability`, is already in this list, so this is the complete
attribute set of a `SlotWatcher` object. -/
def slotWatcherAssignedAttrs : List String :=
  ["museums", "target_email", "sendgrid_api_key",
   "target_dates", "state_file", "last_availability"]

/-- The `status_text` lookup table of `SlotWatcher.send_notification`. -/
def notificationStatusText (status : String) : String :=
  (snapGet
    [("available", "Available for purchase"), ("few_left", "Only a few left"),
     ("sold_out", "Sold out"), ("closed", "Closed")] status).getD status

/-- Attribute read on a `SlotWatcher` object: `Except.error` models the
`AttributeError` raised when the attribute was never assigned. -/
def getAttr (attrs : List String) (name : String) : Except String String :=
  if attrs.contains name then Except.ok name else Except.error "AttributeError"

/-- The email body construction of `SlotWatcher.send_notification`: the
f-string renders the date, the status text and then `self.url`, so the
attribute read happens while the body is built, before the mail client is
constructed. -/
def buildNotificationBody (attrs : List String) (target_date : CalendarDate)
    (status : String) : Except String String :=
  match getAttr attrs "url" with
  | Except.error e => Except.error e
  | Except.ok u =>
    Except.ok (fmtIso target_date ++ " " ++ notificationStatusText status ++ " " ++ u)

/-- Observable outcome of one `SlotWatcher.send_notification` call. -/
inductive NotifOutcome where
  | noApiKey
  | exceptionLogged
  | sent
deriving DecidableEq, Repr

/-- `SlotWatcher.send_notification`: return early when no SendGrid key is
configured; otherwise build the email inside the try block (an exception
while building is caught, logged and swallowed) and only then hand it to
the mail client. -/
def send_notification (apiKeyConfigured : Bool) (attrs : List String)
    (target_date : CalendarDate) (status : String) : NotifOutcome :=
  if !apiKeyConfigured then .noApiKey
  else
    match buildNotificationBody attrs target_date status with
    | Except.error _ => .exceptionLogged
    | Except.ok _ => .sent

/-- The previous-status rule exactly as the claim about the migration
fallback words it: the bare-date value is consulted only when the full
source-prefixed key is absent from the previous snapshot. -/
def specFullKeyFirstResolve (prev : Snapshot) (origKey : String) (d : CalendarDate) : String :=
  match snapGet prev origKey with
  | some v => v
  | none => (snapGet prev (fmtIso d)).getD "unknown"

/-- The slash-form rule exactly as the spec words it: the year of a
`MM/DD` key is the fallback year supplied by the context argument. -/
def specSlashNormalize (ctxYear : Nat) (key : String) : Option CalendarDate :=
  match slashMatchPair key.toList with
  | some (m, d) => mkDate ctxYear m d
  | none => none

/-! Helper lemmas. -/

theorem foldl_fixed {α β : Type} (f : β → α → β) (l : List α) (b : β)
    (h : ∀ acc x, f acc x = acc) : l.foldl f b = b := by
  induction l generalizing b with
  | nil => rfl
  | cons x t ih => simp only [List.foldl_cons, h]; exact ih b

theorem findSome?_some_of_mem {α β : Type} {l : List α} {f : α → Option β} {b : β}
    (h : l.findSome? f = some b) : ∃ a ∈ l, f a = some b := by
  induction l with
  | nil => simp [List.findSome?] at h
  | cons x t ih =>
    rw [List.findSome?_cons] at h
    cases hx : f x with
    | some v =>
      rw [hx] at h
      exact ⟨x, List.mem_cons_self x t, by rw [hx]; exact h⟩
    | none =>
      rw [hx] at h
      obtain ⟨a, ha, hfa⟩ := ih h
      exact ⟨a, List.mem_cons_of_mem x ha, hfa⟩

theorem isDigitChar_digitChar (n : Nat) (h : n < 10) : isDigitChar (digitChar n) = true := by
  interval_cases n <;> rfl

theorem digitVal_digitChar (n : Nat) (h : n < 10) : digitVal (digitChar n) = n := by
  interval_cases n <;> rfl

theorem daysInMonth_le_31 (y m : Nat) : daysInMonth y m ≤ 31 := by
  unfold daysInMonth
  split
  · split <;> omega
  · split <;> omega

theorem daysInMonth_1900_le_2024 (m : Nat) : daysInMonth 1900 m ≤ daysInMonth 2024 m := by
  by_cases h2 : m = 2
  · subst h2; decide
  · by_cases h4 : m = 4 ∨ m = 6 ∨ m = 9 ∨ m = 11 <;> simp [daysInMonth, h2, h4]

theorem mkDate_some {y m d : Nat} {dt : CalendarDate} (h : mkDate y m d = some dt) :
    validDate dt.year dt.month dt.day = true ∧ dt = ⟨y, m, d⟩ := by
  unfold mkDate at h
  split at h
  · cases h; exact ⟨by assumption, rfl⟩
  · cases h

theorem applyYearFix_valid {t : Option (Nat × Nat × Nat)} {dt : CalendarDate}
    (h : applyYearFix t = some dt) : validDate dt.year dt.month dt.day = true := by
  match t with
  | none => cases h
  | some (y, m, d) =>
    have h' : (mkDate y m d).bind
        (fun dt => if dt.year = 1900 then mkDate 2024 dt.month dt.day else some dt)
        = some dt := h
    rw [Option.bind_eq_some] at h'
    obtain ⟨dt', h1, h2⟩ := h'
    split at h2
    · exact (mkDate_some h2).1
    · cases h2; exact (mkDate_some h1).1

theorem monthCands_pad2 (m : Nat) (h1 : 1 ≤ m) (h2 : m ≤ 12) (r : List Char) :
    ∃ t, monthCands (pad2Chars m ++ r) = (m, r) :: t := by
  interval_cases m <;> exact ⟨_, rfl⟩

theorem dayCands_pad2 (d : Nat) (h1 : 1 ≤ d) (h2 : d ≤ 31) (r : List Char) :
    ∃ t, dayCands (pad2Chars d ++ r) = (d, r) :: t := by
  interval_cases d <;> exact ⟨_, rfl⟩

theorem isoMatch_fmt (y m d : Nat) (hy2 : y ≤ 9999) (hm1 : 1 ≤ m) (hm2 : m ≤ 12)
    (hd1 : 1 ≤ d) (hd2 : d ≤ 31) :
    isoMatchTriple (fmtIsoChars ⟨y, m, d⟩) = some (y, m, d) := by
  have hq : ∀ k : Nat, k % 10 < 10 := fun k => Nat.mod_lt _ (by omega)
  have hshape : fmtIsoChars ⟨y, m, d⟩ =
      digitChar (y / 1000 % 10) :: digitChar (y / 100 % 10) :: digitChar (y / 10 % 10) ::
        digitChar (y % 10) :: '-' :: (pad2Chars m ++ '-' :: pad2Chars d) := rfl
  rw [hshape]
  obtain ⟨tm, htm⟩ := monthCands_pad2 m hm1 hm2 ('-' :: pad2Chars d)
  obtain ⟨td, htd⟩ := dayCands_pad2 d hd1 hd2 []
  rw [List.append_nil] at htd
  simp only [isoMatchTriple]
  rw [if_pos (by simp [isDigitChar_digitChar _ (hq _)])]
  rw [htm, List.findSome?_cons]
  simp only [htd, List.findSome?_cons]
  have hnum : num4 (digitChar (y / 1000 % 10)) (digitChar (y / 100 % 10))
      (digitChar (y / 10 % 10)) (digitChar (y % 10)) = y := by
    simp only [num4, digitVal_digitChar _ (hq _)]
    omega
  simp [hnum]

theorem monthCands_rest (s : List Char) (mc : Nat × List Char) (h : mc ∈ monthCands s) :
    mc.2 = s.drop 1 ∨ mc.2 = s.drop 2 := by
  match s with
  | [] => simp [monthCands] at h
  | [c₁] =>
    simp only [monthCands] at h
    split at h
    · simp at h; subst h; left; rfl
    · simp at h
  | c₁ :: c₂ :: r₂ =>
    simp only [monthCands, List.mem_append] at h
    rcases h with (h | h) | h
    · split at h
      · simp at h; subst h; right; rfl
      · simp at h
    · split at h
      · simp at h; subst h; right; rfl
      · simp at h
    · split at h
      · simp at h; subst h; left; rfl
      · simp at h

theorem iso_none_of_slash {s : List Char} {m d : Nat}
    (h : slashMatchPair s = some (m, d)) : isoMatchTriple s = none := by
  match s with
  | [] => rfl
  | [_] => rfl
  | [_, _] => rfl
  | [_, _, _] => rfl
  | [_, _, _, _] => rfl
  | y₁ :: y₂ :: y₃ :: y₄ :: sep :: rest =>
    simp only [isoMatchTriple]
    rw [if_neg]
    intro hcond
    simp only [Bool.and_eq_true] at hcond
    obtain ⟨-, ⟨⟨-, hd2⟩, hd3⟩, -⟩ := hcond
    have h2 : y₂ ≠ '/' := by intro he; rw [he] at hd2; revert hd2; decide
    have h3 : y₃ ≠ '/' := by intro he; rw [he] at hd3; revert hd3; decide
    unfold slashMatchPair at h
    obtain ⟨mc, hmem, hf⟩ := findSome?_some_of_mem h
    rcases monthCands_rest _ _ hmem with hr | hr <;> rw [hr] at hf <;>
      simp only [List.drop_succ_cons, List.drop_zero, List.drop_one, List.tail_cons] at hf
    · have hf' : (if y₂ = '/' then
          (dayCands (y₃ :: y₄ :: sep :: rest)).findSome? fun dc =>
            if dc.2 = [] then some (mc.1, dc.1) else none
        else none) = some (m, d) := hf
      rw [if_neg h2] at hf'
      cases hf'
    · have hf' : (if y₃ = '/' then
          (dayCands (y₄ :: sep :: rest)).findSome? fun dc =>
            if dc.2 = [] then some (mc.1, dc.1) else none
        else none) = some (m, d) := hf
      rw [if_neg h3] at hf'
      cases hf'

theorem snapSet_of_fresh (s : Snapshot) (k v : String) (h : ∀ p ∈ s, p.1 ≠ k) :
    snapSet s k v = s ++ [(k, v)] := by
  induction s with
  | nil => rfl
  | cons p t ih =>
    simp only [snapSet]
    rw [if_neg (h p (List.mem_cons_self p t))]
    rw [ih fun q hq => h q (List.mem_cons_of_mem p hq)]
    rfl

theorem mem_keys_snapSet (s : Snapshot) (k v x : String)
    (h : x ∈ (snapSet s k v).map Prod.fst) : x ∈ s.map Prod.fst ∨ x = k := by
  induction s with
  | nil => simp [snapSet] at h; right; exact h
  | cons p t ih =>
    simp only [snapSet] at h
    split at h
    · simp only [List.map_cons, List.mem_cons] at h
      rcases h with h | h
      · right; exact h
      · left; simp only [List.map_cons, List.mem_cons]; right; exact h
    · simp only [List.map_cons, List.mem_cons] at h
      rcases h with h | h
      · left; simp only [List.map_cons, List.mem_cons]; left; exact h
      · rcases ih h with h' | h'
        · left; simp only [List.map_cons, List.mem_cons]; right; exact h'
        · right; exact h'

theorem snapSet_keys_nodup (s : Snapshot) (k v : String)
    (h : (s.map Prod.fst).Nodup) : ((snapSet s k v).map Prod.fst).Nodup := by
  induction s with
  | nil => simp [snapSet]
  | cons p t ih =>
    simp only [List.map_cons, List.nodup_cons] at h
    obtain ⟨hp, ht⟩ := h
    simp only [snapSet]
    split
    · next he =>
      simp only [List.map_cons, List.nodup_cons]
      exact ⟨by rw [← he]; exact hp, ht⟩
    · next he =>
      simp only [List.map_cons, List.nodup_cons]
      refine ⟨?_, ih ht⟩
      intro hmem
      rcases mem_keys_snapSet t k v p.1 hmem with h' | h'
      · exact hp h'
      · exact he h'

theorem snapUpdate_append (s : Snapshot) : ∀ base : Snapshot,
    (s.map Prod.fst).Nodup → (∀ x ∈ s.map Prod.fst, x ∉ base.map Prod.fst) →
    snapUpdate base s = base ++ s := by
  induction s with
  | nil => intro base _ _; simp [snapUpdate]
  | cons p t ih =>
    intro base hnd hdisj
    simp only [List.map_cons, List.nodup_cons] at hnd
    obtain ⟨hp, ht⟩ := hnd
    have hfresh : ∀ q ∈ base, q.1 ≠ p.1 := by
      intro q hq he
      exact hdisj p.1 (by simp) (he ▸ List.mem_map_of_mem Prod.fst hq)
    have hstep : snapUpdate base (p :: t) = snapUpdate (base ++ [(p.1, p.2)]) t := by
      simp only [snapUpdate, List.foldl_cons]
      rw [snapSet_of_fresh base p.1 p.2 hfresh]
    rw [hstep, ih (base ++ [(p.1, p.2)]) ht ?_]
    · simp
    · intro x hx
      simp only [List.map_append, List.mem_append]
      rintro (hb | hs)
      · exact hdisj x (by simp [hx]) hb
      · simp at hs
        exact hp (hs ▸ hx)

theorem snapUpdate_nil (s : Snapshot) (h : (s.map Prod.fst).Nodup) :
    snapUpdate [] s = s := by
  rw [snapUpdate_append s [] h (by simp)]
  rfl

theorem staticStep_nodup {ctx : Nat × Nat} {acc acc' : Snapshot} {item : StaticItem}
    (h : staticStep ctx acc item = some acc') (hnd : (acc.map Prod.fst).Nodup) :
    (acc'.map Prod.fst).Nodup := by
  obtain ⟨odt, opc, cs⟩ := item
  cases odt with
  | none =>
    have h' : some acc = some acc' := h
    cases h'; exact hnd
  | some dayText =>
    by_cases hdig : isDigitText dayText = true
    · cases opc with
      | none =>
        have h' : some acc = some acc' := by rw [← h]; simp [staticStep, hdig]
        cases h'; exact hnd
      | some classes =>
        have h' : (match mkDate ctx.1 ctx.2 (natOfDigitText dayText) with
            | none => none
            | some dt => some (snapSet acc (fmtIso dt) (staticItemStatus classes cs)))
            = some acc' := by rw [← h]; simp [staticStep, hdig]
        cases hm : mkDate ctx.1 ctx.2 (natOfDigitText dayText) with
        | none => rw [hm] at h'; cases h'
        | some dt =>
          rw [hm] at h'
          cases h'
          exact snapSet_keys_nodup _ _ _ hnd
    · have h' : some acc = some acc' := by rw [← h]; simp [staticStep, hdig]
      cases h'; exact hnd

theorem parse_static_keys_nodup {ctx : Nat × Nat} :
    ∀ (items : List StaticItem) (acc s : Snapshot), (acc.map Prod.fst).Nodup →
    List.foldlM (staticStep ctx) acc items = some s → (s.map Prod.fst).Nodup := by
  intro items
  induction items with
  | nil => intro acc s hnd h; cases h; exact hnd
  | cons i t ih =>
    intro acc s hnd h
    rw [List.foldlM_cons] at h
    cases hstep : staticStep ctx acc i with
    | none => rw [hstep] at h; exact Option.noConfusion h
    | some acc' =>
      rw [hstep] at h
      exact ih acc' s (staticStep_nodup hstep hnd) h

/-! Claim theorems. -/

/-- C2 counterexample: the signal string, which contains both the
few-left token `few` and the available token `open`, classifies as
`available`, not `few_left`, because the source checks the available
tokens first. -/
theorem c2_priority_counterexample :
    containsSub (lowerChars "few open".toList) "few".toList = true ∧
    containsSub (lowerChars "few open".toList) "open".toList = true ∧
    determine_status_from_value (.vStr "few open") = some "available" := by
  refine ⟨by decide, by decide, by decide⟩

/-- C2 (amended): the token rules are first-match-wins with the available
tokens (available, open, circle) checked before the few-left tokens (few,
limited, triangle): any string containing an available token classifies as
`available` even when a few-left token is present, and `few_left` results
exactly when no available token occurs but a few-left token does. -/
theorem c2_priority_amended :
    (∀ s : String,
      containsAnySub (lowerChars s.toList) ["available", "open", "circle"] = true →
      determine_status_from_value (.vStr s) = some "available") ∧
    (∀ s : String,
      containsAnySub (lowerChars s.toList) ["available", "open", "circle"] = false →
      containsAnySub (lowerChars s.toList) ["few", "limited", "triangle"] = true →
      determine_status_from_value (.vStr s) = some "few_left") := by
  constructor
  · intro s h1
    simp only [String.toList] at h1
    simp only [determine_status_from_value, String.toList]
    rw [if_pos h1]
  · intro s h1 h2
    simp only [String.toList] at h1 h2
    simp only [determine_status_from_value, String.toList]
    rw [if_neg (by simp [h1]), if_pos h2]

/-- C2 witness. -/
theorem c2_priority_amended_witness :
    determine_status_from_value (.vStr "few open") = some "available" :=
  c2_priority_amended.1 "few open" (by decide)

/-- C3: for every date and status, with a SendGrid key configured,
`send_notification` takes its exception branch and sends nothing: the
attribute `url` is never assigned on a SlotWatcher object, so building
the email body raises an AttributeError that the handler logs and
swallows before the mail client is reached. -/
theorem c3_notification_always_fails :
    slotWatcherAssignedAttrs.contains "url" = false ∧
    (∀ (td : CalendarDate) (st : String),
      send_notification true slotWatcherAssignedAttrs td st = .exceptionLogged) := by
  exact ⟨rfl, fun td st => rfl⟩

/-- C5: the classifier is total over string, boolean, integer and
other-shaped signals: it always resolves to exactly one of the five
statuses, the other-shape case resolves to `unknown`, and a string on
which no token rule fires resolves to `unknown`. -/
theorem c5_classifier_total :
    (∀ v : JsValue,
      classify v = "available" ∨ classify v = "few_left" ∨ classify v = "sold_out" ∨
        classify v = "closed" ∨ classify v = "unknown") ∧
    classify .vOther = "unknown" ∧
    (∀ s : String,
      containsAnySub (lowerChars s.toList) ["available", "open", "circle"] = false →
      containsAnySub (lowerChars s.toList) ["few", "limited", "triangle"] = false →
      containsAnySub (lowerChars s.toList) ["sold", "out", "cross", "closed"] = false →
      containsSub (lowerChars s.toList) "closed".toList = false →
      classify (.vStr s) = "unknown") := by
  refine ⟨?_, rfl, ?_⟩
  · intro v
    cases v with
    | vStr s =>
      simp only [classify, determine_status_from_value]
      split_ifs <;> simp
    | vBool b => cases b <;> simp [classify, determine_status_from_value]
    | vInt n =>
      simp only [classify, determine_status_from_value]
      split_ifs <;> simp
    | vOther => simp [classify, determine_status_from_value]
  · intro s h1 h2 h3 h4
    simp only [String.toList] at h1 h2 h3 h4
    simp [classify, determine_status_from_value, String.toList, h1, h2, h3, h4]

/-- C5 witness. -/
theorem c5_classifier_total_witness : classify (.vStr "zzz") = "unknown" :=
  c5_classifier_total.2.2 "zzz" (by decide) (by decide) (by decide) (by decide)

/-- C6 counterexample: the previous snapshot holds both the full key
(with stored value `unknown`, a non-bookable status) and the bare date
key (with value `available`). The claim says the full key value decides,
which would make this a rising edge and emit a transition; the code falls
back to the bare date value because the full key value equals `unknown`,
and emits nothing. -/
theorem c6_full_key_counterexample :
    snapGet [("teshima_2025-10-13", "unknown"), ("2025-10-13", "available")]
        "teshima_2025-10-13" = some "unknown" ∧
    bookable "unknown" = false ∧
    specFullKeyFirstResolve [("teshima_2025-10-13", "unknown"), ("2025-10-13", "available")]
        "teshima_2025-10-13" ⟨2025, 10, 13⟩ = "unknown" ∧
    resolvePrev [("teshima_2025-10-13", "unknown"), ("2025-10-13", "available")]
        "teshima_2025-10-13" ⟨2025, 10, 13⟩ = "available" ∧
    check_for_changes [("teshima_2025-10-13", "available")]
        [("teshima_2025-10-13", "unknown"), ("2025-10-13", "available")] = [] := by
  refine ⟨rfl, rfl, rfl, by decide, by decide⟩

/-- C6 (amended): the full key prior value decides whenever it is present
and differs from `unknown`; the bare-date value is consulted exactly when
the full key is absent or its stored value is the string `unknown`. -/
theorem c6_full_key_amended :
    (∀ (prev : Snapshot) (k : String) (d : CalendarDate) (v : String),
      snapGet prev k = some v → v ≠ "unknown" → resolvePrev prev k d = v) ∧
    (∀ (prev : Snapshot) (k : String) (d : CalendarDate),
      snapGet prev k = none →
        resolvePrev prev k d = (snapGet prev (fmtIso d)).getD "unknown") ∧
    (∀ (prev : Snapshot) (k : String) (d : CalendarDate),
      snapGet prev k = some "unknown" →
        resolvePrev prev k d = (snapGet prev (fmtIso d)).getD "unknown") := by
  refine ⟨?_, ?_, ?_⟩
  · intro prev k d v h hne
    simp only [resolvePrev, h, Option.getD_some]
    rw [if_pos hne]
  · intro prev k d h
    simp only [resolvePrev, h, Option.getD_none]
    rw [if_neg (by simp)]
  · intro prev k d h
    simp only [resolvePrev, h, Option.getD_some]
    rw [if_neg (by simp)]

/-- C6 witness. -/
theorem c6_full_key_amended_witness :
    resolvePrev [("teshima_2025-10-13", "sold_out")] "teshima_2025-10-13" ⟨2025, 10, 13⟩
      = "sold_out" :=
  c6_full_key_amended.1 [("teshima_2025-10-13", "sold_out")] "teshima_2025-10-13"
    ⟨2025, 10, 13⟩ "sold_out" rfl (by decide)

/-- C10 counterexample: a rendered-path calendar element whose
`closed-section` marker is present but whose `price-day` descendant
carries a `sold-out` class resolves to `sold_out`, not `closed`: in the
Selenium path the closed checks come after the one-left, aval and
sold-out checks, so a closed marker does not override a price-marker
status. -/
theorem c10_closed_override_counterexample :
    (⟨"13", "item", ["price-day sold-out"], true, "13"⟩ : SelItem).hasClosedSection = true ∧
    seleniumStatus ⟨"13", "item", ["price-day sold-out"], true, "13"⟩ = "sold_out" ∧
    "sold_out" ≠ "closed" := by
  refine ⟨rfl, by decide, by decide⟩

/-- C10 (amended): the closed override holds in the static-markup path
only: a `closed-section` child rewrites any price-marker status to
`closed` there (shown both on the per-item status function for every
class list and through the full static parse), while the rendered path
treats closed as the lowest-priority alternative. -/
theorem c10_closed_override_amended :
    (∀ classes : List String, staticItemStatus classes true = "closed") ∧
    parse_static_calendar [⟨some "13", some ["price-day", "sold-out"], true⟩] (2025, 10)
      = some [("2025-10-13", "closed")] := by
  exact ⟨fun classes => rfl, by decide⟩

/-- C4: because `target_dates` is initialized to the empty list and never
modified, the structured-data strategy and the pattern-in-text strategy
return the empty mapping on every input, the whole JavaScript extraction
returns the empty mapping for every script content, and `parse_calendar`
always equals the static-markup extraction alone. -/
theorem c4_js_strategies_empty :
    (∀ data : List (String × JsValue), parse_js_calendar_data data = []) ∧
    (∀ pairs : List (String × String), extract_dates_from_text pairs = []) ∧
    (∀ scripts : List (List ScriptMatch), extract_calendar_from_js scripts = []) ∧
    (∀ (scripts : List (List ScriptMatch)) (items : List StaticItem) (ctx : Nat × Nat),
      parse_calendar scripts items ctx = parse_static_calendar items ctx) := by
  have h1 : ∀ data : List (String × JsValue), parse_js_calendar_data data = [] := by
    intro data
    unfold parse_js_calendar_data
    apply foldl_fixed
    intro acc kv
    cases hk : is_date_key kv.1
    · simp [hk]
    · simp only [hk, if_true]
      cases hp : parse_date_key kv.1 with
      | none => simp
      | some dt => simp [target_dates]
  have h2 : ∀ pairs : List (String × String), extract_dates_from_text pairs = [] := by
    intro pairs
    unfold extract_dates_from_text
    apply foldl_fixed
    intro acc p
    cases hp : parse_date_key p.1 with
    | none => simp
    | some dt => simp [target_dates]
  have h3 : ∀ scripts : List (List ScriptMatch), extract_calendar_from_js scripts = [] := by
    intro scripts
    unfold extract_calendar_from_js
    apply foldl_fixed
    intro acc ms
    apply foldl_fixed
    intro acc₂ m
    cases m with
    | asJson data => simp only [h1]; rfl
    | asText pairs => simp only [h2]; rfl
  refine ⟨h1, h2, h3, ?_⟩
  intro scripts items ctx
  unfold parse_calendar
  simp only [h3, List.isEmpty_nil, if_true]
  cases hps : parse_static_calendar items ctx with
  | none => rfl
  | some html =>
    cases hhe : html.isEmpty with
    | true =>
      have : html = [] := by
        cases html
        · rfl
        · simp [List.isEmpty] at hhe
      subst this
      simp
    | false =>
      have hnd : (html.map Prod.fst).Nodup := by
        apply parse_static_keys_nodup items [] html (by simp)
        exact hps
      simp only [hhe, Bool.false_eq_true, if_false]
      rw [snapUpdate_nil html hnd]

/-- C9: the normalizer rejects the invalid date 2024-02-30 with a null
result rather than an exception, and in general any date it does return
passed the Gregorian validity check, so a null result is the only outcome
for unmatched patterns and invalid digit combinations. -/
theorem c9_normalizer_rejects_invalid :
    parse_date_key "2024-02-30" = none ∧
    (∀ (key : String) (dt : CalendarDate), parse_date_key key = some dt →
      validDate dt.year dt.month dt.day = true) := by
  constructor
  · decide
  · intro key dt h
    unfold parse_date_key at h
    cases h1 : applyYearFix (isoMatchTriple key.toList) with
    | some d1 =>
      rw [h1] at h
      have h' : some d1 = some dt := h
      cases h'
      exact applyYearFix_valid h1
    | none =>
      rw [h1] at h
      have hA : ((applyYearFix ((slashMatchPair key.toList).map fun p => ((1900:Nat), p.1, p.2))).orElse fun _ =>
          (applyYearFix (compactMatchTriple key.toList)).orElse fun _ =>
            (isoSearchTriple key.toList).bind fun t => mkDate t.1 t.2.1 t.2.2) = some dt := h
      cases h2 : applyYearFix ((slashMatchPair key.toList).map fun p => ((1900:Nat), p.1, p.2)) with
      | some d2 =>
        rw [h2] at hA
        have h' : some d2 = some dt := hA
        cases h'
        exact applyYearFix_valid h2
      | none =>
        rw [h2] at hA
        have hB : ((applyYearFix (compactMatchTriple key.toList)).orElse fun _ =>
            (isoSearchTriple key.toList).bind fun t => mkDate t.1 t.2.1 t.2.2) = some dt := hA
        cases h3 : applyYearFix (compactMatchTriple key.toList) with
        | some d3 =>
          rw [h3] at hB
          have h' : some d3 = some dt := hB
          cases h'
          exact applyYearFix_valid h3
        | none =>
          rw [h3] at hB
          have hC : ((isoSearchTriple key.toList).bind fun t => mkDate t.1 t.2.1 t.2.2)
              = some dt := hB
          rw [Option.bind_eq_some] at hC
          obtain ⟨t, -, hm⟩ := hC
          exact (mkDate_some hm).1

/-- C9 witness. -/
theorem c9_normalizer_witness : validDate 2024 10 20 = true :=
  c9_normalizer_rejects_invalid.2 "2024-10-20" ⟨2024, 10, 20⟩ (by decide)

/-- C7 counterexample: `parse_date_key` takes no context argument at all;
the slash key resolves to year 2024 regardless, so with a context
fallback year 2025 the spec rule and the code disagree. -/
theorem c7_slash_year_counterexample :
    parse_date_key "10/20" = some ⟨2024, 10, 20⟩ ∧
    specSlashNormalize 2025 "10/20" = some ⟨2025, 10, 20⟩ ∧
    parse_date_key "10/20" ≠ specSlashNormalize 2025 "10/20" := by
  refine ⟨by decide, by decide, by decide⟩

/-- C7 (amended): the year of a slash `MM/DD` key is the hardcoded
constant 2024, obtained by parsing with placeholder year 1900 and then
replacing it: every key that fully matches the slash pattern with a
month and day valid in year 1900 parses to that month and day in 2024,
independently of any context. -/
theorem c7_slash_year_amended (key : String) (m d : Nat)
    (hs : slashMatchPair key.toList = some (m, d))
    (hv : validDate 1900 m d = true) :
    parse_date_key key = some ⟨2024, m, d⟩ := by
  have hiso := iso_none_of_slash hs
  have hv24 : validDate 2024 m d = true := by
    simp only [validDate, Bool.and_eq_true, decide_eq_true_eq] at hv ⊢
    have := daysInMonth_1900_le_2024 m
    omega
  unfold parse_date_key
  rw [hiso, hs]
  have hfix : applyYearFix ((some (m, d)).map fun p => ((1900:Nat), p.1, p.2))
      = some ⟨2024, m, d⟩ := by
    simp only [Option.map_some']
    show (mkDate 1900 m d).bind _ = _
    rw [show mkDate 1900 m d = some ⟨1900, m, d⟩ from by simp [mkDate, hv]]
    show (if (⟨1900, m, d⟩ : CalendarDate).year = 1900 then mkDate 2024 m d
      else some ⟨1900, m, d⟩) = some ⟨2024, m, d⟩
    rw [if_pos rfl]
    simp [mkDate, hv24]
  rw [hfix]
  rfl

/-- C7 witness. -/
theorem c7_slash_year_amended_witness : parse_date_key "02/10" = some ⟨2024, 2, 10⟩ :=
  c7_slash_year_amended "02/10" 2 10 (by decide) (by decide)

/-- C8 counterexample: the valid date 1900-05-01 formats to `1900-05-01`,
but normalizing that string yields 2024-05-01 because the year-1900
placeholder fixup rewrites genuine 1900 dates as well, so the round trip
fails at year 1900. -/
theorem c8_roundtrip_counterexample :
    validDate 1900 5 1 = true ∧
    fmtIso ⟨1900, 5, 1⟩ = "1900-05-01" ∧
    parse_date_key "1900-05-01" = some ⟨2024, 5, 1⟩ ∧
    (⟨2024, 5, 1⟩ : CalendarDate) ≠ ⟨1900, 5, 1⟩ := by
  refine ⟨by decide, by decide, by decide, by decide⟩

/-- C8 (amended): for every valid calendar date whose year is not 1900,
formatting to `YYYY-MM-DD` and normalizing the result yields the same
date back. -/
theorem c8_roundtrip_amended (y m d : Nat) (hv : validDate y m d = true) (hy : y ≠ 1900) :
    parse_date_key (fmtIso ⟨y, m, d⟩) = some ⟨y, m, d⟩ := by
  have hv' := hv
  simp only [validDate, Bool.and_eq_true, decide_eq_true_eq] at hv'
  obtain ⟨⟨⟨⟨⟨hy1, hy2⟩, hm1⟩, hm2⟩, hd1⟩, hd2⟩ := hv'
  have hd31 : d ≤ 31 := le_trans hd2 (daysInMonth_le_31 y m)
  have hiso : isoMatchTriple (fmtIso ⟨y, m, d⟩).toList = some (y, m, d) := by
    have he : (fmtIso ⟨y, m, d⟩).toList = fmtIsoChars ⟨y, m, d⟩ := rfl
    rw [he]
    exact isoMatch_fmt y m d hy2 hm1 hm2 hd1 hd31
  unfold parse_date_key
  rw [hiso]
  have hfix : applyYearFix (some (y, m, d)) = some ⟨y, m, d⟩ := by
    show (mkDate y m d).bind _ = _
    rw [show mkDate y m d = some ⟨y, m, d⟩ from by simp [mkDate, hv]]
    show (if (⟨y, m, d⟩ : CalendarDate).year = 1900 then mkDate 2024 m d
      else some ⟨y, m, d⟩) = some ⟨y, m, d⟩
    rw [if_neg hy]
  rw [hfix]
  rfl

/-- C8 witness. -/
theorem c8_roundtrip_amended_witness :
    parse_date_key (fmtIso ⟨2025, 10, 13⟩) = some ⟨2025, 10, 13⟩ :=
  c8_roundtrip_amended 2025 10 13 (by decide) (by decide)

/-- C1: the change detector emits on rising edges only. For every entry
of the current snapshot that is bookable and whose key date part parses,
its `(date, status)` pair is emitted when the resolved prior status is
not bookable; conversely every emitted pair comes from such an entry
whose resolved prior status is not bookable. On the two concrete spec
scenarios, sold-out to available emits exactly one transition and
available to few-left emits none. -/
theorem c1_rising_edge :
    (∀ (current prev : Snapshot) (k st : String) (dte : CalendarDate),
      (k, st) ∈ current → bookable st = true →
      parseIsoDate (keyDatePart k) = some dte →
      bookable (resolvePrev prev k dte) = false →
      (dte, st) ∈ check_for_changes current prev) ∧
    (∀ (current prev : Snapshot) (dte : CalendarDate) (st : String),
      (dte, st) ∈ check_for_changes current prev →
      ∃ k, (k, st) ∈ current ∧ bookable st = true ∧
        parseIsoDate (keyDatePart k) = some dte ∧
        bookable (resolvePrev prev k dte) = false) ∧
    check_for_changes [("teshima_2025-10-13", "available")] [("teshima_2025-10-13", "sold_out")]
      = [(⟨2025, 10, 13⟩, "available")] ∧
    check_for_changes [("teshima_2025-10-13", "few_left")] [("teshima_2025-10-13", "available")]
      = [] := by
  refine ⟨?_, ?_, by decide, by decide⟩
  · intro current prev k st dte hmem hb hp hr
    unfold check_for_changes availableDates
    rw [List.mem_filterMap]
    refine ⟨(dte, st, k), ?_, ?_⟩
    · rw [List.mem_filterMap]
      exact ⟨(k, st), hmem, by simp [availEntry, hb, hp]⟩
    · simp [emitForKey, hr]
  · intro current prev dte st h
    unfold check_for_changes availableDates at h
    rw [List.mem_filterMap] at h
    obtain ⟨trip, htrip, hemit⟩ := h
    rw [List.mem_filterMap] at htrip
    obtain ⟨kv, hkv, hav⟩ := htrip
    obtain ⟨k0, st0⟩ := kv
    simp only [availEntry] at hav
    by_cases hb : bookable st0 = true
    · rw [if_pos hb] at hav
      cases hpi : parseIsoDate (keyDatePart k0) with
      | none => rw [hpi] at hav; cases hav
      | some d0 =>
        rw [hpi] at hav
        simp only [Option.map_some'] at hav
        cases hav
        simp only [emitForKey] at hemit
        cases hres : bookable (resolvePrev prev k0 d0) with
        | true => rw [if_pos hres] at hemit; cases hemit
        | false =>
          rw [if_neg (by simp [hres])] at hemit
          have h1 : d0 = dte ∧ st0 = st := by
            have := Option.some.inj hemit
            exact ⟨congrArg Prod.fst this, congrArg Prod.snd this⟩
          obtain ⟨hde, hse⟩ := h1
          subst hde
          subst hse
          exact ⟨k0, hkv, hb, hpi, hres⟩
    · rw [if_neg hb] at hav
      cases hav

/-- C1 witness. -/
theorem c1_rising_edge_witness :
    ((⟨2025, 10, 13⟩ : CalendarDate), "available") ∈
      check_for_changes [("teshima_2025-10-13", "available")] [] :=
  c1_rising_edge.1 [("teshima_2025-10-13", "available")] [] "teshima_2025-10-13" "available"
    ⟨2025, 10, 13⟩ (by decide) (by decide) (by decide) (by decide)
